import Mathlib

/-!
Verification of the SU storage layer (`src/servers/su/src/domain/clients/store.rs`).

This file gives a shallow embedding of the storage layer: the embedded
key-value bytestore (RocksDB is modelled as an association list from string
keys to byte values), the relational `messages` table (a list of rows), and
the storage facade operations `save_message`, `get_messages`,
`read_binaries`, the deep-hash operations and the startup sync loop.

External I/O that can fail nondeterministically (RocksDB puts/deletes, the
relational insert, connection checkout) is modelled by injected outcome
flags (`SaveEnv`), so that every error path of the source is reachable in
the model.  Byte-level UTF-8 is abstracted: keys are Lean `String`s (UTF-8
encoding of equal strings is equal, and the encoding is injective), and
string values stored in the bytestore are encoded by an injective
character-code map `strBytes`.

Domain types from the `dal` module (`Message`, `Process`,
`PaginatedMessages`) are not part of the source under verification; only
the attributes the storage layer reads are modelled, and their converters
(`Message::from_process`, `Message::from_bytes`, `Message::from_val`) are
modelled as injective constructors that record the provenance of each
returned entry.
-/

/-- Error taxonomy of the storage layer (`StoreErrorType` in the source,
declared in the out-of-scope `dal` module; constructors follow the spec's
error-handling section). -/
inductive StoreErrorType where
  | DatabaseError (s : String)
  | NotFound (s : String)
  | JsonError (s : String)
  | EnvVarError (s : String)
  | IntError (s : String)
  | MessageExists (s : String)
  | ByteStoreError (s : String)
deriving DecidableEq, Repr

/-- Modelled from the spec: the `From<String>` impl for `StoreErrorType`
(used by the `?` operator on bytestore results) lives outside `src/`; the
spec says string-wrapped bytestore errors are lifted into the facade's
error taxonomy. -/
def liftByteStoreError (s : String) : StoreErrorType :=
  StoreErrorType.ByteStoreError s

/-- Accumulate a decimal digit string; `none` on any non-digit
(`str::parse` body after the optional sign). -/
def digitsGo : List Char → Nat → Option Nat
  | [], acc => some acc
  | c :: cs, acc =>
    if c.isDigit then digitsGo cs (acc * 10 + (c.toNat - 48)) else none

/-- One or more decimal digits. -/
def digitsCore : List Char → Option Nat
  | [] => none
  | c :: cs => digitsGo (c :: cs) 0

/-- Rust `str::parse` for a bounded signed integer type: an optional sign
followed by one or more digits, rejecting values outside `[lo, hi]`. -/
def parseIntRange (lo hi : Int) (s : String) : Option Int :=
  let core : Option Int :=
    match s.data with
    | '-' :: rest => (digitsCore rest).map (fun n => -(n : Int))
    | '+' :: rest => (digitsCore rest).map (fun n => (n : Int))
    | cs => (digitsCore cs).map (fun n => (n : Int))
  core.bind (fun v => if lo ≤ v ∧ v ≤ hi then some v else none)

/-- `str::parse::<i64>`. -/
def parseI64 (s : String) : Option Int :=
  parseIntRange (-(2 ^ 63)) (2 ^ 63 - 1) s

/-- `str::parse::<i32>`. -/
def parseI32 (s : String) : Option Int :=
  parseIntRange (-(2 ^ 31)) (2 ^ 31 - 1) s

/-- Rust `as usize` cast of an `i64` value (two's-complement wraparound
into `[0, 2^64)`). -/
def i64ToUsize (n : Int) : Nat :=
  (n % (2 : Int) ^ 64).toNat

/-- Injective character-code encoding standing in for UTF-8 `into_bytes`. -/
def strBytes (s : String) : List Nat :=
  s.data.map Char.toNat

/-- Partial inverse of `strBytes`, standing in for `String::from_utf8`. -/
def bytesToStr (b : List Nat) : Option String :=
  if b.all (fun n => n < 55296 || (57343 < n && n < 1114112)) then
    some (String.mk (b.map Char.ofNat))
  else none

/-- The RocksDB contents: an association list from keys to byte values.
`kvPut` shadows older entries (RocksDB `put` overwrites) and `kvDel`
removes the key. -/
abbrev KV : Type := List (String × List Nat)

def kvGet (kv : KV) (k : String) : Option (List Nat) :=
  (kv.find? (fun p => p.1 == k)).map (fun p => p.2)

def kvPut (kv : KV) (k : String) (v : List Nat) : KV :=
  (k, v) :: kv

def kvDel (kv : KV) (k : String) : KV :=
  kv.filter (fun p => p.1 != k)

/-- `bytestore::ByteStore`: an optional database handle (populated by
`try_connect`) plus the configured `max_read_memory`. -/
structure ByteStore where
  db : Option KV
  maxReadMemory : Nat
deriving DecidableEq

/-- `ByteStore::is_ready`. -/
def ByteStore.is_ready (bs : ByteStore) : Bool :=
  bs.db.isSome

/-- `ByteStore::create_key` (modelled on strings; RocksDB receives the
UTF-8 bytes of this string). -/
def create_key (message_id : String) (assignment_id : Option String)
    (process_id : String) (timestamp : String) : String :=
  match assignment_id with
  | some a =>
      "message___" ++ process_id ++ "___" ++ timestamp ++ "___" ++
        message_id ++ "___" ++ a
  | none =>
      "message___" ++ process_id ++ "___" ++ timestamp ++ "___" ++ message_id

/-- Key of a deep-hash membership entry. -/
def deepHashKey (process_id deep_hash : String) : String :=
  "deephash___" ++ process_id ++ "___" ++ deep_hash

/-- Key of the per-process deep-hash version entry. -/
def deepHashVersionKey (process_id : String) : String :=
  "deephashversion___" ++ process_id

/-- `ByteStore::save_binary`. `io_ok` injects the outcome of the RocksDB
`put`. On success the new store contents are returned. -/
def ByteStore.save_binary (bs : ByteStore) (io_ok : Bool) (message_id : String)
    (assignment_id : Option String) (process_id timestamp : String)
    (binary : List Nat) : Except String ByteStore :=
  match bs.db with
  | none => Except.error "Database is not initialized"
  | some kv =>
    if io_ok then
      Except.ok { bs with
        db := some (kvPut kv (create_key message_id assignment_id process_id timestamp) binary) }
    else Except.error "Failed to write to RocksDB"

/-- `ByteStore::delete_binary`. -/
def ByteStore.delete_binary (bs : ByteStore) (io_ok : Bool) (message_id : String)
    (assignment_id : Option String) (process_id timestamp : String) :
    Except String ByteStore :=
  match bs.db with
  | none => Except.error "Database is not initialized"
  | some kv =>
    if io_ok then
      Except.ok { bs with
        db := some (kvDel kv (create_key message_id assignment_id process_id timestamp)) }
    else Except.error "Failed to delete from RocksDB"

/-- `ByteStore::exists` (named `exists` in the source; renamed because
`exists` is reserved in Lean). Uninitialized store reads as `false`. -/
def exists_key (bs : ByteStore) (message_id : String)
    (assignment_id : Option String) (process_id timestamp : String) : Bool :=
  match bs.db with
  | none => false
  | some kv =>
    (kvGet kv (create_key message_id assignment_id process_id timestamp)).isSome

/-- `ByteStore::save_deep_hash`. -/
def ByteStore.save_deep_hash (bs : ByteStore) (io_ok : Bool)
    (process_id deep_hash : String) : Except String ByteStore :=
  match bs.db with
  | none => Except.error "Database is not initialized"
  | some kv =>
    if io_ok then
      Except.ok { bs with
        db := some (kvPut kv (deepHashKey process_id deep_hash) (strBytes process_id)) }
    else Except.error "Failed to write to RocksDB"

/-- `ByteStore::delete_deep_hash`. -/
def ByteStore.delete_deep_hash (bs : ByteStore) (io_ok : Bool)
    (process_id deep_hash : String) : Except String ByteStore :=
  match bs.db with
  | none => Except.error "Database is not initialized"
  | some kv =>
    if io_ok then
      Except.ok { bs with db := some (kvDel kv (deepHashKey process_id deep_hash)) }
    else Except.error "Failed to delete from RocksDB"

/-- `ByteStore::deep_hash_exists`. -/
def ByteStore.deep_hash_exists (bs : ByteStore) (process_id deep_hash : String) : Bool :=
  match bs.db with
  | none => false
  | some kv => (kvGet kv (deepHashKey process_id deep_hash)).isSome

/-- `ByteStore::save_deep_hash_version`. -/
def ByteStore.save_deep_hash_version (bs : ByteStore) (io_ok : Bool)
    (process_id version : String) : Except String ByteStore :=
  match bs.db with
  | none => Except.error "Database is not initialized"
  | some kv =>
    if io_ok then
      Except.ok { bs with
        db := some (kvPut kv (deepHashVersionKey process_id) (strBytes version)) }
    else Except.error "Failed to write to RocksDB"

/-- `ByteStore::get_deep_hash_version`. -/
def ByteStore.get_deep_hash_version (bs : ByteStore) (process_id : String) :
    Except String String :=
  match bs.db with
  | none => Except.error "Cannot acquire read lock, deep hash version, match"
  | some kv =>
    match kvGet kv (deepHashVersionKey process_id) with
    | some v =>
      match bytesToStr v with
      | some vs => Except.ok vs
      | none => Except.error "Error parsing deep hash version"
    | none => Except.error "No deephash version found"

/-- A `read_binaries` request id: `(message_id, assignment_id, process_id,
timestamp)`. -/
abbrev Id4 : Type := String × Option String × String × String

/-- The bytestore key of a request id (the same `create_key` used by the
point operations). -/
def keyOfId (id : Id4) : String :=
  create_key id.1 id.2.1 id.2.2.1 id.2.2.2

/-- Lookup in the result map of `read_binaries` (DashMap modelled as an
association list; inserts shadow older entries). -/
def lookupId (m : List (Id4 × List Nat)) (id : Id4) : Option (List Nat) :=
  (m.find? (fun p => decide (p.1 = id))).map (fun p => p.2)

/-- Loop body of `ByteStore::read_binaries`: iterate the ids in input
order; a missing key is skipped; each found value's length is added to the
running total, and exceeding `max_read_memory` aborts with an error. -/
def rbGo (kv : KV) (maxMem : Nat) :
    List Id4 → List (Id4 × List Nat) → Nat → Except String (List (Id4 × List Nat))
  | [], acc, _ => Except.ok acc
  | id :: rest, acc, total =>
    match kvGet kv (keyOfId id) with
    | some v =>
      if maxMem < total + v.length then
        Except.error ("Memory usage exceeded the limit: " ++ toString maxMem ++ " bytes")
      else rbGo kv maxMem rest ((id, v) :: acc) (total + v.length)
    | none => rbGo kv maxMem rest acc total

/-- `ByteStore::read_binaries`. -/
def read_binaries (bs : ByteStore) (ids : List Id4) :
    Except String (List (Id4 × List Nat)) :=
  match bs.db with
  | none => Except.error "Database is not initialized"
  | some kv => rbGo kv bs.maxReadMemory ids [] 0

/-- Facade `save_deephash` (`DataStore::save_deephash`): a no-op success
when the bytestore is not ready. -/
def save_deephash (io_ok : Bool) (bs : ByteStore) (process_id deep_hash : String) :
    Except StoreErrorType Unit × ByteStore :=
  if bs.is_ready then
    match bs.save_deep_hash io_ok process_id deep_hash with
    | Except.ok bs1 => (Except.ok (), bs1)
    | Except.error e => (Except.error (liftByteStoreError e), bs)
  else (Except.ok (), bs)

/-- Facade `save_deephash_version`: a no-op success when the bytestore is
not ready. -/
def save_deephash_version (io_ok : Bool) (bs : ByteStore) (process_id version : String) :
    Except StoreErrorType Unit × ByteStore :=
  if bs.is_ready then
    match bs.save_deep_hash_version io_ok process_id version with
    | Except.ok bs1 => (Except.ok (), bs1)
    | Except.error e => (Except.error (liftByteStoreError e), bs)
  else (Except.ok (), bs)

/-- Facade `get_deephash_version`: any failure (including "not ready")
collapses into the same `DatabaseError`. -/
def get_deephash_version (bs : ByteStore) (process_id : String) :
    Except StoreErrorType String :=
  if bs.is_ready then
    match bs.get_deep_hash_version process_id with
    | Except.ok dhv => Except.ok dhv
    | Except.error _ =>
      Except.error (StoreErrorType.DatabaseError
        "Deep hash version does not exist for this process")
  else
    Except.error (StoreErrorType.DatabaseError
      "Deep hash version does not exist for this process")

/-- Facade `check_existing_deep_hash`. -/
def check_existing_deep_hash (bs : ByteStore) (process_id deep_hash : String) :
    Except StoreErrorType Unit :=
  if bs.is_ready then
    if bs.deep_hash_exists process_id deep_hash then
      Except.error (StoreErrorType.MessageExists "Deep hash already exists")
    else Except.ok ()
  else Except.ok ()

/-- The attributes of a `Message` that `save_message` reads (the accessor
methods `message_id()`, `assignment_id()`, ... of the out-of-scope domain
type, modelled as total fields). -/
structure MessageRec where
  process_id : String
  message_id : String
  assignment_id : String
  epoch : Int
  nonce : Int
  timestamp : Int
  hash_chain : String
  message_data : String
deriving DecidableEq

/-- A row of the relational `messages` table as written by `save_message`. -/
structure SavedRow where
  msg : MessageRec
  bundle : List Nat
deriving DecidableEq

/-- The bytestore key `save_message` writes for a message. -/
def msgBinKey (m : MessageRec) : String :=
  create_key m.message_id (some m.assignment_id) m.process_id (toString m.timestamp)

instance {ε α : Type} [DecidableEq ε] [DecidableEq α] : DecidableEq (Except ε α) :=
  fun x y =>
    match x, y with
    | Except.ok a, Except.ok b =>
      if h : a = b then isTrue (congrArg Except.ok h)
      else isFalse (fun hc => h (Except.ok.inj hc))
    | Except.ok _, Except.error _ => isFalse (fun hc => Except.noConfusion hc)
    | Except.error _, Except.ok _ => isFalse (fun hc => Except.noConfusion hc)
    | Except.error e, Except.error f =>
      if h : e = f then isTrue (congrArg Except.error h)
      else isFalse (fun hc => h (Except.error.inj hc))

/-- Injected outcomes of the external effects of one `save_message` call:
connection checkout, the RocksDB puts, the relational insert (error text or
inserted row count), and the compensating RocksDB deletes. -/
structure SaveEnv where
  conn_ok : Bool
  save_binary_ok : Bool
  save_deep_hash_ok : Bool
  insert_result : Except String Nat
  delete_binary_ok : Bool
  delete_deep_hash_ok : Bool
deriving DecidableEq

/-- Observable events of one `save_message` call, in execution order. -/
inductive SaveEvent where
  | save_binary (key : String)
  | save_deep_hash (key : String)
  | insert_message
  | delete_binary (key : String)
  | delete_deep_hash (key : String)
deriving DecidableEq

/-- Result of a `save_message` call: the returned value, the final
bytestore, the final `messages` table and the event trace. -/
structure SaveOutcome where
  result : Except StoreErrorType String
  bs : ByteStore
  tbl : List SavedRow
  trace : List SaveEvent
deriving DecidableEq

/-- The error produced by the relational insert, if any: a Diesel error is
wrapped as a `DatabaseError`, and a zero-row insert becomes
`DatabaseError "Error saving message"`. -/
def insertError (r : Except String Nat) : Option StoreErrorType :=
  match r with
  | Except.ok row_count =>
    if row_count = 0 then some (StoreErrorType.DatabaseError "Error saving message")
    else none
  | Except.error e => some (StoreErrorType.DatabaseError e)

/-- Second half of `save_message`: the relational insert followed, on
failure, by the compensating bytestore deletes (whose own errors are
propagated by `?`). -/
def insertPhase (env : SaveEnv) (bs : ByteStore) (tbl : List SavedRow)
    (m : MessageRec) (bundle : List Nat) (deep_hash : Option String)
    (tr : List SaveEvent) : SaveOutcome :=
  match insertError env.insert_result with
  | none =>
    ⟨Except.ok "saved", bs, tbl ++ [⟨m, bundle⟩], tr ++ [SaveEvent.insert_message]⟩
  | some e =>
    if bs.is_ready then
      match bs.delete_binary env.delete_binary_ok m.message_id (some m.assignment_id)
          m.process_id (toString m.timestamp) with
      | Except.error de =>
        ⟨Except.error (liftByteStoreError de), bs, tbl,
          tr ++ [SaveEvent.insert_message, SaveEvent.delete_binary (msgBinKey m)]⟩
      | Except.ok bs1 =>
        match deep_hash with
        | some dh =>
          match bs1.delete_deep_hash env.delete_deep_hash_ok m.process_id dh with
          | Except.error de =>
            ⟨Except.error (liftByteStoreError de), bs1, tbl,
              tr ++ [SaveEvent.insert_message, SaveEvent.delete_binary (msgBinKey m),
                    SaveEvent.delete_deep_hash (deepHashKey m.process_id dh)]⟩
          | Except.ok bs2 =>
            ⟨Except.error e, bs2, tbl,
              tr ++ [SaveEvent.insert_message, SaveEvent.delete_binary (msgBinKey m),
                    SaveEvent.delete_deep_hash (deepHashKey m.process_id dh)]⟩
        | none =>
          ⟨Except.error e, bs1, tbl, tr ++ [SaveEvent.insert_message, SaveEvent.delete_binary (msgBinKey m)]⟩
    else ⟨Except.error e, bs, tbl, tr ++ [SaveEvent.insert_message]⟩

/-- `DataStore::save_message`: connection checkout, then (when the
bytestore is ready) `save_binary` and optionally `save_deep_hash` — any
failure aborting before the insert — then the relational insert with
compensating deletes on failure. -/
def save_message (env : SaveEnv) (bs : ByteStore) (tbl : List SavedRow)
    (m : MessageRec) (bundle : List Nat) (deep_hash : Option String) : SaveOutcome :=
  if env.conn_ok = false then
    ⟨Except.error (StoreErrorType.DatabaseError "Failed to get connection from pool."),
      bs, tbl, []⟩
  else if bs.is_ready then
    match bs.save_binary env.save_binary_ok m.message_id (some m.assignment_id)
        m.process_id (toString m.timestamp) bundle with
    | Except.error e =>
      ⟨Except.error (liftByteStoreError e), bs, tbl, [SaveEvent.save_binary (msgBinKey m)]⟩
    | Except.ok bs1 =>
      match deep_hash with
      | some dh =>
        match bs1.save_deep_hash env.save_deep_hash_ok m.process_id dh with
        | Except.error e =>
          ⟨Except.error (liftByteStoreError e), bs1, tbl,
            [SaveEvent.save_binary (msgBinKey m),
             SaveEvent.save_deep_hash (deepHashKey m.process_id dh)]⟩
        | Except.ok bs2 =>
          insertPhase env bs2 tbl m bundle deep_hash
            [SaveEvent.save_binary (msgBinKey m),
             SaveEvent.save_deep_hash (deepHashKey m.process_id dh)]
      | none =>
        insertPhase env bs1 tbl m bundle deep_hash [SaveEvent.save_binary (msgBinKey m)]
  else insertPhase env bs tbl m bundle deep_hash []

/-- The attributes of a `Process` that `get_messages` reads: its id and
whether `process.assignment` is present. -/
structure ProcessRec where
  process_id : String
  assignment : Option String
deriving DecidableEq

/-- A row of the relational `messages` table (`DbMessage`). -/
structure DbMessage where
  row_id : Int
  process_id : String
  message_id : String
  assignment_id : Option String
  message_data : String
  epoch : Int
  nonce : Int
  timestamp : Int
  bundle : List Nat
  hash_chain : String
deriving DecidableEq

/-- A domain `Message` as returned by `get_messages`, tagged by the
converter that produced it (`Message::from_process`, `Message::from_bytes`
or `Message::from_val`; the converters live in the out-of-scope `dal`
module and are modelled as constructors). -/
inductive Message where
  | ofProcess (p : ProcessRec)
  | ofBytes (b : List Nat)
  | ofVal (data : String) (b : List Nat)
deriving DecidableEq

/-- Whether a returned entry is the synthetic process-as-message. -/
def Message.isProc : Message → Bool
  | Message.ofProcess _ => true
  | _ => false

/-- The paginated result (`PaginatedMessages::from_messages`). -/
structure PaginatedMessages where
  messages : List Message
  hasNext : Bool
  mode : String
deriving DecidableEq

/-- Result of a `get_messages` call; `panic` marks a Rust panic (an
out-of-bounds slice index). -/
inductive Outcome (α : Type) where
  | ok (a : α)
  | err (e : StoreErrorType)
  | panic
deriving DecidableEq

/-- Parse an optional `i64` pagination bound; a present bound that fails
to parse is an `IntError` (the `From<ParseIntError>` conversion). -/
def parseBound64 (b : Option String) : Except StoreErrorType (Option Int) :=
  match b with
  | none => Except.ok none
  | some s =>
    match parseI64 s with
    | some v => Except.ok (some v)
    | none => Except.error (StoreErrorType.IntError "data store int error")

/-- Parse an optional `i32` pagination bound. -/
def parseBound32 (b : Option String) : Except StoreErrorType (Option Int) :=
  match b with
  | none => Except.ok none
  | some s =>
    match parseI32 s with
    | some v => Except.ok (some v)
    | none => Except.error (StoreErrorType.IntError "data store int error")

/-- Conditionally add a strictly-greater-than filter (`.gt` bound): the
bound applies only when present. -/
def filterFrom (key : DbMessage → Int) (fv : Option Int) (l : List DbMessage) :
    List DbMessage :=
  match fv with
  | some f => l.filter (fun r => decide (f < key r))
  | none => l

/-- Conditionally add a less-than-or-equal filter (`.le` bound). -/
def filterTo (key : DbMessage → Int) (tv : Option Int) (l : List DbMessage) :
    List DbMessage :=
  match tv with
  | some t => l.filter (fun r => decide (key r ≤ t))
  | none => l

/-- The filter pipeline of `get_messages`: restrict to the process, then
apply the optional bounds — timestamp mode (`timestamp > from`,
`timestamp <= to`) when no nonce bound is set, nonce mode (`nonce >
from_nonce`, `nonce <= to_nonce`) otherwise. -/
def selectedRows (tbl : List DbMessage) (pid : String)
    (from_t to_t from_nonce to_nonce : Option String) :
    Except StoreErrorType (List DbMessage) :=
  let base := tbl.filter (fun r => r.process_id == pid)
  match from_nonce, to_nonce with
  | none, none =>
    match parseBound64 from_t with
    | Except.error e => Except.error e
    | Except.ok fv =>
      match parseBound64 to_t with
      | Except.error e => Except.error e
      | Except.ok tv =>
        Except.ok (filterTo (fun r => r.timestamp) tv
          (filterFrom (fun r => r.timestamp) fv base))
  | _, _ =>
    match parseBound32 from_nonce with
    | Except.error e => Except.error e
    | Except.ok fv =>
      match parseBound32 to_nonce with
      | Except.error e => Except.error e
      | Except.ok tv =>
        Except.ok (filterTo (fun r => r.nonce) tv
          (filterFrom (fun r => r.nonce) fv base))

/-- The `sequence_mode` tag. -/
def seqMode (from_nonce to_nonce : Option String) : String :=
  match from_nonce, to_nonce with
  | none, none => "timestamp"
  | _, _ => "nonce"

/-- The `include_process` flag of `get_messages` (evaluated after the
bound parses have succeeded): process assignment present and first page. -/
def includeProcess (proc : ProcessRec) (from_t from_nonce to_nonce : Option String) : Bool :=
  match from_nonce, to_nonce with
  | none, none => proc.assignment.isSome && from_t.isNone
  | _, _ =>
    proc.assignment.isSome &&
      (match from_nonce with
       | some s =>
         (match parseI32 s with
          | some v => decide (v = -1)
          | none => false)
       | none => true)

/-- Insert a row into a list sorted by ascending timestamp. -/
def insertByTs (r : DbMessage) : List DbMessage → List DbMessage
  | [] => [r]
  | x :: xs => if r.timestamp < x.timestamp then r :: x :: xs else x :: insertByTs r xs

/-- `ORDER BY timestamp ASC`. -/
def sortByTsAsc : List DbMessage → List DbMessage
  | [] => []
  | x :: xs => insertByTs x (sortByTsAsc xs)

/-- The `read_binaries` request id of a row. -/
def idOf (r : DbMessage) : Id4 :=
  (r.message_id, r.assignment_id, r.process_id, toString r.timestamp)

/-- `StoreClient::get_message_internal`: the relational fallback — the
earliest row matching `(message_id, assignment_id)`, or `message_id` alone
when the row has no assignment. -/
def get_message_internal (tbl : List DbMessage) (mid : String) (aid : Option String) :
    Except StoreErrorType Message :=
  let candidates := match aid with
    | some a => tbl.filter (fun r => r.message_id == mid && r.assignment_id == some a)
    | none => tbl.filter (fun r => r.message_id == mid)
  match (sortByTsAsc candidates).head? with
  | some r => Except.ok (Message.ofVal r.message_data r.bundle)
  | none => Except.error (StoreErrorType.NotFound "Message not found")

/-- Map the fetched key rows to messages: splice the bytestore payload
when present, otherwise fall back to a single-row relational read. -/
def mapRows (tbl : List DbMessage) (bins : List (Id4 × List Nat)) :
    List DbMessage → Except StoreErrorType (List Message)
  | [] => Except.ok []
  | r :: rest =>
    match lookupId bins (idOf r) with
    | some b =>
      match mapRows tbl bins rest with
      | Except.ok ms => Except.ok (Message.ofBytes b :: ms)
      | Except.error e => Except.error e
    | none =>
      match get_message_internal tbl r.message_id r.assignment_id with
      | Except.ok msg =>
        match mapRows tbl bins rest with
        | Except.ok ms => Except.ok (msg :: ms)
        | Except.error e => Except.error e
      | Except.error e => Except.error e

/-- The fetch-and-slice step of `get_messages`: fetch `adjusted + 1` rows
ordered by ascending timestamp (a negative SQL `LIMIT` is a database
error), set `has_next_page` when more than `adjusted` rows came back, and
slice the page with the Rust cast `adjusted as usize` — when the cast
index exceeds the fetched length the slice panics. -/
def sliceOutcome (rows : List DbMessage) (adjusted : Int) :
    Outcome (List DbMessage × Bool) :=
  if adjusted + 1 < 0 then
    Outcome.err (StoreErrorType.DatabaseError "LIMIT must not be negative")
  else
    let fetched := (sortByTsAsc rows).take (adjusted + 1).toNat
    let hasNext : Bool := decide ((fetched.length : Int) > adjusted)
    let sliceEnd : Nat := if hasNext then i64ToUsize adjusted else fetched.length
    if sliceEnd ≤ fetched.length then Outcome.ok (fetched.take sliceEnd, hasNext)
    else Outcome.panic

def finishFetch (tbl : List DbMessage) (bs : ByteStore) (proc : ProcessRec)
    (rows : List DbMessage) (mode : String) (incl : Bool) (limit : Option Int) :
    Outcome PaginatedMessages :=
  match sliceOutcome rows (if incl then limit.getD 100 - 1 else limit.getD 100) with
  | Outcome.err e => Outcome.err e
  | Outcome.panic => Outcome.panic
  | Outcome.ok (pageRows, hasNext) =>
    let headMsgs := if incl then [Message.ofProcess proc] else []
    if bs.is_ready then
      match read_binaries bs (pageRows.map idOf) with
      | Except.error e => Outcome.err (liftByteStoreError e)
      | Except.ok bins =>
        match mapRows tbl bins pageRows with
        | Except.error e => Outcome.err e
        | Except.ok msgs => Outcome.ok ⟨headMsgs ++ msgs, hasNext, mode⟩
    else
      Outcome.ok
        ⟨headMsgs ++ pageRows.map (fun r => Message.ofVal r.message_data r.bundle),
          hasNext, mode⟩

/-- `DataStore::get_messages`. -/
def get_messages (tbl : List DbMessage) (bs : ByteStore) (proc : ProcessRec)
    (from_t to_t : Option String) (limit : Option Int)
    (from_nonce to_nonce : Option String) : Outcome PaginatedMessages :=
  match selectedRows tbl proc.process_id from_t to_t from_nonce to_nonce with
  | Except.error e => Outcome.err e
  | Except.ok rows =>
    finishFetch tbl bs proc rows (seqMode from_nonce to_nonce)
      (includeProcess proc from_t from_nonce to_nonce) limit

/-- Insert a row into a list sorted by descending timestamp. -/
def insertByTsDesc (r : DbMessage) : List DbMessage → List DbMessage
  | [] => [r]
  | x :: xs => if x.timestamp < r.timestamp then r :: x :: xs else x :: insertByTsDesc r xs

/-- `ORDER BY timestamp DESC` (the iteration order of
`get_message_by_offset_from_end` over offsets `0..total`). -/
def sortByTsDesc : List DbMessage → List DbMessage
  | [] => []
  | x :: xs => insertByTsDesc x (sortByTsDesc xs)

/-- Loop body of `sync_bytestore` over the reverse-timestamp row list:
stop at the first row whose bytestore key is already present, otherwise
`save_binary` the row's bundle. -/
def goSync : List DbMessage → KV → KV
  | [], kv => kv
  | r :: rest, kv =>
    if (kvGet kv (create_key r.message_id r.assignment_id r.process_id
        (toString r.timestamp))).isSome then kv
    else
      goSync rest
        (kvPut kv
          (create_key r.message_id r.assignment_id r.process_id (toString r.timestamp))
          r.bundle)

/-- `StoreClient::sync_bytestore` after `try_connect` has succeeded,
acting on the bytestore contents. -/
def sync_bytestore (tbl : List DbMessage) (kv : KV) : KV :=
  goSync (sortByTsDesc tbl) kv

lemma kvGet_kvPut_self (kv : KV) (k : String) (v : List Nat) :
    kvGet (kvPut kv k v) k = some v := by
  simp [kvGet, kvPut, List.find?]

lemma kvGet_kvPut_isSome (kv : KV) (k k' : String) (v : List Nat)
    (h : (kvGet kv k).isSome = true) :
    (kvGet (kvPut kv k' v) k).isSome = true := by
  by_cases hk : (k' == k) = true
  · simp [kvGet, kvPut, List.find?, hk]
  · simp only [Bool.not_eq_true] at hk
    simpa [kvGet, kvPut, List.find?, hk] using h

lemma kvGet_goSync_isSome (l : List DbMessage) (kv : KV) (k : String)
    (h : (kvGet kv k).isSome = true) :
    (kvGet (goSync l kv) k).isSome = true := by
  induction l generalizing kv with
  | nil => simpa [goSync] using h
  | cons r rest ih =>
    by_cases hex : (kvGet kv (create_key r.message_id r.assignment_id r.process_id
        (toString r.timestamp))).isSome = true
    · simpa [goSync, hex] using h
    · simp only [Bool.not_eq_true] at hex
      simp only [goSync, hex, if_false]
      exact ih _ (kvGet_kvPut_isSome _ _ _ _ h)

/-- C8: running the bytestore sync loop a second time immediately after a
completed run, with no intervening writes, leaves the bytestore contents
identical: the loop walks the message log by reverse timestamp, stops at
the first row whose key is already present, and saves only absent rows, so
the second run stops at the very first row. -/
theorem sync_bytestore_idempotent (tbl : List DbMessage) (kv : KV) :
    sync_bytestore tbl (sync_bytestore tbl kv) = sync_bytestore tbl kv := by
  unfold sync_bytestore
  generalize sortByTsDesc tbl = l
  cases l with
  | nil => simp [goSync]
  | cons r rest =>
    by_cases hex : (kvGet kv (create_key r.message_id r.assignment_id r.process_id
        (toString r.timestamp))).isSome = true
    · simp [goSync, hex]
    · simp only [Bool.not_eq_true] at hex
      have h1 : (kvGet (goSync (r :: rest) kv)
          (create_key r.message_id r.assignment_id r.process_id
            (toString r.timestamp))).isSome = true := by
        simp only [goSync, hex, if_false]
        exact kvGet_goSync_isSome _ _ _ (by rw [kvGet_kvPut_self]; rfl)
      conv_lhs => rw [goSync]
      rw [if_pos h1]

/-- C7: the bytestore key is exactly
`message___{process_id}___{timestamp}___{message_id}___{assignment_id}`
when an assignment id is present and
`message___{process_id}___{timestamp}___{message_id}` when it is absent,
and the very same `create_key` encoding is what `save_binary`,
`delete_binary`, `exists` and `read_binaries` address. -/
theorem create_key_encoding (mId a pid ts : String) (aid : Option String)
    (kv : KV) (bs : ByteStore) (bin : List Nat) (hdb : bs.db = some kv) :
    create_key mId (some a) pid ts =
      "message___" ++ pid ++ "___" ++ ts ++ "___" ++ mId ++ "___" ++ a
    ∧ create_key mId none pid ts =
      "message___" ++ pid ++ "___" ++ ts ++ "___" ++ mId
    ∧ bs.save_binary true mId aid pid ts bin =
        Except.ok { bs with db := some (kvPut kv (create_key mId aid pid ts) bin) }
    ∧ bs.delete_binary true mId aid pid ts =
        Except.ok { bs with db := some (kvDel kv (create_key mId aid pid ts)) }
    ∧ exists_key bs mId aid pid ts = (kvGet kv (create_key mId aid pid ts)).isSome
    ∧ keyOfId (mId, aid, pid, ts) = create_key mId aid pid ts := by
  refine ⟨rfl, rfl, ?_, ?_, ?_, rfl⟩ <;>
    simp [ByteStore.save_binary, ByteStore.delete_binary, exists_key, hdb]

theorem create_key_encoding_witness :
    (ByteStore.mk (some []) 0).db = some ([] : KV)
    ∧ (create_key "m1" (some "a1") "p1" "1000" =
        "message___" ++ "p1" ++ "___" ++ "1000" ++ "___" ++ "m1" ++ "___" ++ "a1"
      ∧ create_key "m1" none "p1" "1000" =
        "message___" ++ "p1" ++ "___" ++ "1000" ++ "___" ++ "m1"
      ∧ (ByteStore.mk (some []) 0).save_binary true "m1" (some "a1") "p1" "1000" [1, 2] =
          Except.ok { ByteStore.mk (some []) 0 with
            db := some (kvPut [] (create_key "m1" (some "a1") "p1" "1000") [1, 2]) }
      ∧ (ByteStore.mk (some []) 0).delete_binary true "m1" (some "a1") "p1" "1000" =
          Except.ok { ByteStore.mk (some []) 0 with
            db := some (kvDel [] (create_key "m1" (some "a1") "p1" "1000")) }
      ∧ exists_key (ByteStore.mk (some []) 0) "m1" (some "a1") "p1" "1000" =
          (kvGet [] (create_key "m1" (some "a1") "p1" "1000")).isSome
      ∧ keyOfId ("m1", some "a1", "p1", "1000") = create_key "m1" (some "a1") "p1" "1000") :=
  ⟨rfl, create_key_encoding "m1" "a1" "p1" "1000" (some "a1") [] (ByteStore.mk (some []) 0)
    [1, 2] rfl⟩

/-- C9: when the bytestore is not ready, `save_deephash` and
`save_deephash_version` return success without persisting anything, and a
`get_deephash_version` for the same process immediately after a successful
`save_deephash_version` still fails with the "Deep hash version does not
exist" error — the data is silently dropped, not rejected. -/
theorem deephash_version_dropped_when_not_ready (bs : ByteStore)
    (pid ver dh : String) (io1 io2 : Bool) (h : bs.is_ready = false) :
    save_deephash io1 bs pid dh = (Except.ok (), bs)
    ∧ save_deephash_version io2 bs pid ver = (Except.ok (), bs)
    ∧ get_deephash_version (save_deephash_version io2 bs pid ver).2 pid =
        Except.error (StoreErrorType.DatabaseError
          "Deep hash version does not exist for this process") := by
  refine ⟨?_, ?_, ?_⟩ <;>
    simp [save_deephash, save_deephash_version, get_deephash_version, h]

theorem deephash_version_dropped_witness :
    (ByteStore.mk none 5).is_ready = false
    ∧ (save_deephash true (ByteStore.mk none 5) "p1" "h1" =
        (Except.ok (), ByteStore.mk none 5)
      ∧ save_deephash_version true (ByteStore.mk none 5) "p1" "v1" =
        (Except.ok (), ByteStore.mk none 5)
      ∧ get_deephash_version
          (save_deephash_version true (ByteStore.mk none 5) "p1" "v1").2 "p1" =
          Except.error (StoreErrorType.DatabaseError
            "Deep hash version does not exist for this process")) :=
  ⟨rfl, deephash_version_dropped_when_not_ready (ByteStore.mk none 5) "p1" "v1" "h1"
    true true rfl⟩

/-- C10: the claim says the page slice is always in bounds and
`get_messages` never panics, in particular at `limit = Some(0)` with the
process splice applicable.  Evaluating the model there: the adjusted limit
is `-1`, the fetch (`LIMIT 0`) returns no rows, `has_next_page` is
computed as `0 > -1 = true`, and the slice end `(-1 as usize) = 2^64 - 1`
is out of bounds for the empty row list — the call panics. -/
theorem get_messages_limit_zero_panics :
    get_messages [] (ByteStore.mk (some []) 1000) (ProcessRec.mk "p1" (some "a1"))
      none none (some 0) none none = Outcome.panic := by
  decide

/-- The entries `read_binaries` finds, in input order. -/
def foundList (kv : KV) (ids : List Id4) : List (Id4 × List Nat) :=
  ids.filterMap (fun id => (kvGet kv (keyOfId id)).map (fun v => (id, v)))

/-- The total length of the values found for a request list (the final
running memory total of `read_binaries`). -/
def totalFoundLen (kv : KV) (ids : List Id4) : Nat :=
  ((ids.filterMap (fun id => kvGet kv (keyOfId id))).map List.length).sum

lemma rbGo_spec (kv : KV) (maxMem : Nat) (ids : List Id4) :
    ∀ acc total,
      (total + totalFoundLen kv ids ≤ maxMem →
        rbGo kv maxMem ids acc total = Except.ok ((foundList kv ids).reverse ++ acc))
      ∧ (total ≤ maxMem → maxMem < total + totalFoundLen kv ids →
        rbGo kv maxMem ids acc total =
          Except.error ("Memory usage exceeded the limit: " ++ toString maxMem ++ " bytes")) := by
  induction ids with
  | nil =>
    intro acc total
    constructor
    · intro _; simp [rbGo, foundList]
    · intro hinv h
      simp [totalFoundLen] at h
      omega
  | cons id rest ih =>
    intro acc total
    cases hk : kvGet kv (keyOfId id) with
    | none =>
      have hf : foundList kv (id :: rest) = foundList kv rest := by
        simp [foundList, hk]
      have ht : totalFoundLen kv (id :: rest) = totalFoundLen kv rest := by
        simp [totalFoundLen, hk]
      constructor
      · intro h
        rw [hf]
        rw [ht] at h
        simpa [rbGo, hk] using (ih acc total).1 h
      · intro hinv h
        rw [ht] at h
        simpa [rbGo, hk] using (ih acc total).2 hinv h
    | some v =>
      have hf : foundList kv (id :: rest) = (id, v) :: foundList kv rest := by
        simp [foundList, hk]
      have ht : totalFoundLen kv (id :: rest) = v.length + totalFoundLen kv rest := by
        simp [totalFoundLen, hk]
      constructor
      · intro h
        rw [ht] at h
        have hn : ¬ maxMem < total + v.length := by omega
        have := (ih ((id, v) :: acc) (total + v.length)).1 (by omega)
        simp only [rbGo, hk, hn, if_false]
        rw [this, hf]
        simp
      · intro hinv h
        rw [ht] at h
        by_cases hlt : maxMem < total + v.length
        · simp [rbGo, hk, hlt]
        · have := (ih ((id, v) :: acc) (total + v.length)).2 (by omega) (by omega)
          simp only [rbGo, hk, hlt, if_false]
          exact this

lemma read_binaries_unfold (bs : ByteStore) (kv : KV) (ids : List Id4)
    (h : bs.db = some kv) :
    read_binaries bs ids = rbGo kv bs.maxReadMemory ids [] 0 := by
  rw [read_binaries, h]

lemma foundList_mem (kv : KV) (ids : List Id4) (p : Id4 × List Nat)
    (hp : p ∈ foundList kv ids) : kvGet kv (keyOfId p.1) = some p.2 := by
  unfold foundList at hp
  rw [List.mem_filterMap] at hp
  obtain ⟨id, _, hmap⟩ := hp
  cases hk : kvGet kv (keyOfId id) with
  | none => rw [hk] at hmap; simp at hmap
  | some v =>
    rw [hk] at hmap
    simp only [Option.map_some', Option.some.injEq] at hmap
    rw [← hmap]
    exact hk

/-- C6: with the bytestore initialized, keys whose value is not found are
reported by omission from the returned map, not as an error; and whenever
the running total of found value lengths exceeds `max_read_memory`, the
call fails with the memory-limit error and no partial map is returned. -/
theorem read_binaries_memory_guard (bs : ByteStore) (kv : KV) (ids : List Id4)
    (h : bs.db = some kv) :
    (∀ m, read_binaries bs ids = Except.ok m →
       ∀ id ∈ ids, kvGet kv (keyOfId id) = none → lookupId m id = none)
    ∧ (totalFoundLen kv ids ≤ bs.maxReadMemory →
        read_binaries bs ids = Except.ok (foundList kv ids).reverse)
    ∧ (bs.maxReadMemory < totalFoundLen kv ids →
        read_binaries bs ids = Except.error
          ("Memory usage exceeded the limit: " ++ toString bs.maxReadMemory ++ " bytes")) := by
  have hspec := rbGo_spec kv bs.maxReadMemory ids ([] : List (Id4 × List Nat)) 0
  have hunf := read_binaries_unfold bs kv ids h
  refine ⟨?_, ?_, ?_⟩
  · intro m hm id _ hknone
    have hok : m = (foundList kv ids).reverse := by
      by_cases hle : totalFoundLen kv ids ≤ bs.maxReadMemory
      · have := hspec.1 (by omega)
        rw [hunf, this] at hm
        simpa using (Except.ok.inj hm).symm
      · have := hspec.2 (by omega) (by omega)
        rw [hunf, this] at hm
        exact absurd hm (by simp)
    subst hok
    unfold lookupId
    rw [Option.map_eq_none']
    apply List.find?_eq_none.mpr
    intro p hp
    rw [List.mem_reverse] at hp
    have := foundList_mem kv ids p hp
    simp only [decide_eq_true_eq]
    intro hpe
    rw [hpe] at this
    rw [this] at hknone
    exact Option.noConfusion hknone
  · intro hle
    rw [hunf]
    simpa using hspec.1 (by omega)
  · intro hlt
    rw [hunf]
    exact hspec.2 (by omega) (by omega)

theorem read_binaries_memory_guard_witness :
    (ByteStore.mk (some [("message___p1___1000___m1___a1", [1, 2, 3])]) 2).db =
      some [("message___p1___1000___m1___a1", [1, 2, 3])]
    ∧ ((∀ m, read_binaries
          (ByteStore.mk (some [("message___p1___1000___m1___a1", [1, 2, 3])]) 2)
          [("m1", some "a1", "p1", "1000")] = Except.ok m →
          ∀ id ∈ [(("m1", some "a1", "p1", "1000") : Id4)],
            kvGet [("message___p1___1000___m1___a1", [1, 2, 3])] (keyOfId id) = none →
            lookupId m id = none)
      ∧ (totalFoundLen [("message___p1___1000___m1___a1", [1, 2, 3])]
            [("m1", some "a1", "p1", "1000")] ≤ 2 →
          read_binaries
            (ByteStore.mk (some [("message___p1___1000___m1___a1", [1, 2, 3])]) 2)
            [("m1", some "a1", "p1", "1000")] =
          Except.ok (foundList [("message___p1___1000___m1___a1", [1, 2, 3])]
            [("m1", some "a1", "p1", "1000")]).reverse)
      ∧ (2 < totalFoundLen [("message___p1___1000___m1___a1", [1, 2, 3])]
            [("m1", some "a1", "p1", "1000")] →
          read_binaries
            (ByteStore.mk (some [("message___p1___1000___m1___a1", [1, 2, 3])]) 2)
            [("m1", some "a1", "p1", "1000")] =
          Except.error ("Memory usage exceeded the limit: " ++ toString (2 : Nat) ++ " bytes"))) :=
  ⟨rfl, read_binaries_memory_guard
    (ByteStore.mk (some [("message___p1___1000___m1___a1", [1, 2, 3])]) 2)
    [("message___p1___1000___m1___a1", [1, 2, 3])]
    [("m1", some "a1", "p1", "1000")] rfl⟩

lemma kvGet_kvDel_self (kv : KV) (k : String) : kvGet (kvDel kv k) k = none := by
  unfold kvGet kvDel
  rw [Option.map_eq_none']
  apply List.find?_eq_none.mpr
  intro p hp
  rw [List.mem_filter] at hp
  simpa [bne] using hp.2

lemma kvGet_kvDel_none (kv : KV) (k k' : String) (h : kvGet kv k = none) :
    kvGet (kvDel kv k') k = none := by
  unfold kvGet kvDel
  rw [Option.map_eq_none']
  apply List.find?_eq_none.mpr
  intro p hp
  rw [List.mem_filter] at hp
  unfold kvGet at h
  rw [Option.map_eq_none'] at h
  exact List.find?_eq_none.mp h p hp.1

lemma mem_pre_of_cons_eq_append (x : SaveEvent) (rest pre suf : List SaveEvent)
    (hxy : x ≠ SaveEvent.insert_message)
    (h : x :: rest = pre ++ SaveEvent.insert_message :: suf) : x ∈ pre := by
  cases pre with
  | nil =>
    simp only [List.nil_append] at h
    exact absurd (List.cons.inj h).1 hxy
  | cons p pre' =>
    simp only [List.cons_append] at h
    rw [(List.cons.inj h).1]
    exact List.mem_cons_self _ _

lemma insertPhase_trace (env : SaveEnv) (bs : ByteStore) (tbl : List SavedRow)
    (m : MessageRec) (bundle : List Nat) (dh : Option String) (tr : List SaveEvent) :
    ∃ rest, (insertPhase env bs tbl m bundle dh tr).trace =
      tr ++ SaveEvent.insert_message :: rest := by
  cases dh with
  | none =>
    unfold insertPhase
    dsimp only
    split
    · exact ⟨[], by simp⟩
    · split
      · split
        · exact ⟨[SaveEvent.delete_binary (msgBinKey m)], by simp⟩
        · exact ⟨[SaveEvent.delete_binary (msgBinKey m)], by simp⟩
      · exact ⟨[], by simp⟩
  | some d =>
    unfold insertPhase
    dsimp only
    split
    · exact ⟨[], by simp⟩
    · split
      · split
        · exact ⟨[SaveEvent.delete_binary (msgBinKey m)], by simp⟩
        · split
          · exact ⟨[SaveEvent.delete_binary (msgBinKey m),
              SaveEvent.delete_deep_hash (deepHashKey m.process_id d)], by simp⟩
          · exact ⟨[SaveEvent.delete_binary (msgBinKey m),
              SaveEvent.delete_deep_hash (deepHashKey m.process_id d)], by simp⟩
      · exact ⟨[], by simp⟩

lemma save_message_eq_sbfail (env : SaveEnv) (bs : ByteStore) (tbl : List SavedRow)
    (m : MessageRec) (bundle : List Nat) (dh : Option String) (kv : KV)
    (hconn : env.conn_ok = true) (hkv : bs.db = some kv)
    (hsb : env.save_binary_ok = false) :
    save_message env bs tbl m bundle dh =
      ⟨Except.error (liftByteStoreError "Failed to write to RocksDB"), bs, tbl,
        [SaveEvent.save_binary (msgBinKey m)]⟩ := by
  simp [save_message, ByteStore.save_binary, ByteStore.is_ready, hconn, hkv, hsb]

lemma save_message_eq_nodh (env : SaveEnv) (bs : ByteStore) (tbl : List SavedRow)
    (m : MessageRec) (bundle : List Nat) (kv : KV)
    (hconn : env.conn_ok = true) (hkv : bs.db = some kv)
    (hsb : env.save_binary_ok = true) :
    save_message env bs tbl m bundle none =
      insertPhase env { bs with db := some (kvPut kv (msgBinKey m) bundle) } tbl m bundle
        none [SaveEvent.save_binary (msgBinKey m)] := by
  simp [save_message, ByteStore.save_binary, ByteStore.is_ready, hconn, hkv, hsb, msgBinKey]

lemma save_message_eq_sdhfail (env : SaveEnv) (bs : ByteStore) (tbl : List SavedRow)
    (m : MessageRec) (bundle : List Nat) (d : String) (kv : KV)
    (hconn : env.conn_ok = true) (hkv : bs.db = some kv)
    (hsb : env.save_binary_ok = true) (hsdh : env.save_deep_hash_ok = false) :
    save_message env bs tbl m bundle (some d) =
      ⟨Except.error (liftByteStoreError "Failed to write to RocksDB"),
        { bs with db := some (kvPut kv (msgBinKey m) bundle) }, tbl,
        [SaveEvent.save_binary (msgBinKey m),
         SaveEvent.save_deep_hash (deepHashKey m.process_id d)]⟩ := by
  simp [save_message, ByteStore.save_binary, ByteStore.save_deep_hash, ByteStore.is_ready,
    hconn, hkv, hsb, hsdh, msgBinKey]

lemma save_message_eq_dh (env : SaveEnv) (bs : ByteStore) (tbl : List SavedRow)
    (m : MessageRec) (bundle : List Nat) (d : String) (kv : KV)
    (hconn : env.conn_ok = true) (hkv : bs.db = some kv)
    (hsb : env.save_binary_ok = true) (hsdh : env.save_deep_hash_ok = true) :
    save_message env bs tbl m bundle (some d) =
      insertPhase env
        { bs with db := some (kvPut (kvPut kv (msgBinKey m) bundle)
            (deepHashKey m.process_id d) (strBytes m.process_id)) } tbl m bundle
        (some d)
        [SaveEvent.save_binary (msgBinKey m),
         SaveEvent.save_deep_hash (deepHashKey m.process_id d)] := by
  simp [save_message, ByteStore.save_binary, ByteStore.save_deep_hash, ByteStore.is_ready,
    hconn, hkv, hsb, hsdh, msgBinKey]

lemma insertPhase_fail_nodh (env : SaveEnv) (bs : ByteStore) (tbl : List SavedRow)
    (m : MessageRec) (bundle : List Nat) (tr : List SaveEvent) (kv : KV) (e : StoreErrorType)
    (hkv : bs.db = some kv) (he : insertError env.insert_result = some e)
    (hdb : env.delete_binary_ok = true) :
    insertPhase env bs tbl m bundle none tr =
      ⟨Except.error e, { bs with db := some (kvDel kv (msgBinKey m)) }, tbl,
        tr ++ [SaveEvent.insert_message, SaveEvent.delete_binary (msgBinKey m)]⟩ := by
  simp [insertPhase, ByteStore.delete_binary, ByteStore.is_ready, hkv, he, hdb, msgBinKey]

lemma insertPhase_fail_dh (env : SaveEnv) (bs : ByteStore) (tbl : List SavedRow)
    (m : MessageRec) (bundle : List Nat) (d : String) (tr : List SaveEvent) (kv : KV)
    (e : StoreErrorType)
    (hkv : bs.db = some kv) (he : insertError env.insert_result = some e)
    (hdb : env.delete_binary_ok = true) (hddh : env.delete_deep_hash_ok = true) :
    insertPhase env bs tbl m bundle (some d) tr =
      ⟨Except.error e,
        { bs with db := some (kvDel (kvDel kv (msgBinKey m)) (deepHashKey m.process_id d)) },
        tbl,
        tr ++ [SaveEvent.insert_message, SaveEvent.delete_binary (msgBinKey m),
               SaveEvent.delete_deep_hash (deepHashKey m.process_id d)]⟩ := by
  simp [insertPhase, ByteStore.delete_binary, ByteStore.delete_deep_hash,
    ByteStore.is_ready, hkv, he, hdb, hddh, msgBinKey]

/-- C1 (amended): while the bytestore is ready, the bytestore write
(`save_binary`, plus `save_deep_hash` when a deep hash is given) happens
before the relational insert; any bytestore save failure aborts the call
with no relational insert attempted and the table unchanged; and if the
relational insert fails (error or zero rows) the compensating deletes are
attempted — when they succeed, `exists` on the message's bytestore key is
false afterwards and the insert error is returned.  (The unamended claim
also asserts this when a compensating delete itself fails; see the
counterexample.) -/
theorem save_message_dual_store (env : SaveEnv) (bs : ByteStore) (tbl : List SavedRow)
    (m : MessageRec) (bundle : List Nat) (dh : Option String)
    (hconn : env.conn_ok = true) (hready : bs.is_ready = true) :
    (∀ pre suf, (save_message env bs tbl m bundle dh).trace =
        pre ++ SaveEvent.insert_message :: suf →
        SaveEvent.save_binary (msgBinKey m) ∈ pre)
    ∧ (env.save_binary_ok = false →
        (save_message env bs tbl m bundle dh).result =
          Except.error (liftByteStoreError "Failed to write to RocksDB")
        ∧ SaveEvent.insert_message ∉ (save_message env bs tbl m bundle dh).trace
        ∧ (save_message env bs tbl m bundle dh).tbl = tbl)
    ∧ (∀ d, dh = some d → env.save_binary_ok = true → env.save_deep_hash_ok = false →
        (save_message env bs tbl m bundle dh).result =
          Except.error (liftByteStoreError "Failed to write to RocksDB")
        ∧ SaveEvent.insert_message ∉ (save_message env bs tbl m bundle dh).trace
        ∧ (save_message env bs tbl m bundle dh).tbl = tbl)
    ∧ (∀ e, insertError env.insert_result = some e →
        env.save_binary_ok = true →
        (∀ d, dh = some d → env.save_deep_hash_ok = true) →
        env.delete_binary_ok = true →
        (∀ d, dh = some d → env.delete_deep_hash_ok = true) →
        (save_message env bs tbl m bundle dh).result = Except.error e
        ∧ (save_message env bs tbl m bundle dh).tbl = tbl
        ∧ exists_key (save_message env bs tbl m bundle dh).bs m.message_id
            (some m.assignment_id) m.process_id (toString m.timestamp) = false) := by
  obtain ⟨kv, hkv⟩ :=
    Option.isSome_iff_exists.mp (by simpa [ByteStore.is_ready] using hready)
  refine ⟨?_, ?_, ?_, ?_⟩
  · intro pre suf heq
    cases hsb : env.save_binary_ok with
    | false =>
      rw [save_message_eq_sbfail env bs tbl m bundle dh kv hconn hkv hsb] at heq
      have hmem : SaveEvent.insert_message ∈ pre ++ SaveEvent.insert_message :: suf := by
        simp
      rw [← heq] at hmem
      simp at hmem
    | true =>
      cases dh with
      | none =>
        rw [save_message_eq_nodh env bs tbl m bundle kv hconn hkv hsb] at heq
        obtain ⟨rest, hrest⟩ := insertPhase_trace env
          { bs with db := some (kvPut kv (msgBinKey m) bundle) } tbl m bundle none
          [SaveEvent.save_binary (msgBinKey m)]
        rw [hrest] at heq
        exact mem_pre_of_cons_eq_append _ _ pre suf (by simp) (by simpa using heq)
      | some d =>
        cases hsdh : env.save_deep_hash_ok with
        | false =>
          rw [save_message_eq_sdhfail env bs tbl m bundle d kv hconn hkv hsb hsdh] at heq
          have hmem : SaveEvent.insert_message ∈ pre ++ SaveEvent.insert_message :: suf := by
            simp
          rw [← heq] at hmem
          simp at hmem
        | true =>
          rw [save_message_eq_dh env bs tbl m bundle d kv hconn hkv hsb hsdh] at heq
          obtain ⟨rest, hrest⟩ := insertPhase_trace env
            { bs with db := some (kvPut (kvPut kv (msgBinKey m) bundle)
                (deepHashKey m.process_id d) (strBytes m.process_id)) } tbl m bundle
            (some d)
            [SaveEvent.save_binary (msgBinKey m),
             SaveEvent.save_deep_hash (deepHashKey m.process_id d)]
          rw [hrest] at heq
          exact mem_pre_of_cons_eq_append _ _ pre suf (by simp) (by simpa using heq)
  · intro hsb
    rw [save_message_eq_sbfail env bs tbl m bundle dh kv hconn hkv hsb]
    exact ⟨rfl, by simp, rfl⟩
  · intro d hd hsb hsdh
    subst hd
    rw [save_message_eq_sdhfail env bs tbl m bundle d kv hconn hkv hsb hsdh]
    exact ⟨rfl, by simp, rfl⟩
  · intro e he hsb hsdh hdb hddh
    cases dh with
    | none =>
      rw [save_message_eq_nodh env bs tbl m bundle kv hconn hkv hsb]
      rw [insertPhase_fail_nodh env _ tbl m bundle _ (kvPut kv (msgBinKey m) bundle) e
        rfl he hdb]
      refine ⟨rfl, rfl, ?_⟩
      simp only [exists_key, msgBinKey]
      rw [kvGet_kvDel_self]
      rfl
    | some d =>
      have hsdh1 := hsdh d rfl
      have hddh1 := hddh d rfl
      rw [save_message_eq_dh env bs tbl m bundle d kv hconn hkv hsb hsdh1]
      rw [insertPhase_fail_dh env _ tbl m bundle d _
        (kvPut (kvPut kv (msgBinKey m) bundle) (deepHashKey m.process_id d)
          (strBytes m.process_id)) e rfl he hdb hddh1]
      refine ⟨rfl, rfl, ?_⟩
      simp only [exists_key, msgBinKey]
      rw [kvGet_kvDel_none _ _ _ (kvGet_kvDel_self _ _)]
      rfl

/-- Concrete environment for the C1 counterexample: the relational insert
fails and the compensating `delete_binary` also fails. -/
def envC1X : SaveEnv :=
  SaveEnv.mk true true true (Except.error "duplicate key") false true

/-- Concrete environment for the C1 witness: the relational insert fails
and both compensating deletes succeed. -/
def envC1W : SaveEnv :=
  SaveEnv.mk true true true (Except.error "boom") true true

/-- Concrete ready bytestore for C1. -/
def bsC1 : ByteStore := ByteStore.mk (some []) 1000

/-- Concrete message for C1. -/
def msgC1 : MessageRec := MessageRec.mk "p1" "m1" "a1" 0 0 1000 "hc" "d"

/-- C1 counterexample: with the bytestore ready, when the relational
insert fails and the compensating `delete_binary` fails, the call returns
the delete error (not the insert error) and `exists` on the message's
bytestore key remains `true` — refuting the claim that compensation always
leaves the key absent and returns the insert error. -/
theorem save_message_comp_counterexample :
    (save_message envC1X bsC1 [] msgC1 [1, 2] none).result =
      Except.error (StoreErrorType.ByteStoreError "Failed to delete from RocksDB")
    ∧ (save_message envC1X bsC1 [] msgC1 [1, 2] none).result ≠
      Except.error (StoreErrorType.DatabaseError "duplicate key")
    ∧ exists_key (save_message envC1X bsC1 [] msgC1 [1, 2] none).bs
        "m1" (some "a1") "p1" "1000" = true := by
  refine ⟨rfl, ?_, rfl⟩
  decide

theorem save_message_dual_store_witness :
    envC1W.conn_ok = true
    ∧ bsC1.is_ready = true
    ∧ ((∀ pre suf, (save_message envC1W bsC1 [] msgC1 [1, 2] none).trace =
          pre ++ SaveEvent.insert_message :: suf →
          SaveEvent.save_binary (msgBinKey msgC1) ∈ pre)
      ∧ (envC1W.save_binary_ok = false →
          (save_message envC1W bsC1 [] msgC1 [1, 2] none).result =
            Except.error (liftByteStoreError "Failed to write to RocksDB")
          ∧ SaveEvent.insert_message ∉ (save_message envC1W bsC1 [] msgC1 [1, 2] none).trace
          ∧ (save_message envC1W bsC1 [] msgC1 [1, 2] none).tbl = [])
      ∧ (∀ d, (none : Option String) = some d → envC1W.save_binary_ok = true →
          envC1W.save_deep_hash_ok = false →
          (save_message envC1W bsC1 [] msgC1 [1, 2] none).result =
            Except.error (liftByteStoreError "Failed to write to RocksDB")
          ∧ SaveEvent.insert_message ∉ (save_message envC1W bsC1 [] msgC1 [1, 2] none).trace
          ∧ (save_message envC1W bsC1 [] msgC1 [1, 2] none).tbl = [])
      ∧ (∀ e, insertError envC1W.insert_result = some e →
          envC1W.save_binary_ok = true →
          (∀ d, (none : Option String) = some d → envC1W.save_deep_hash_ok = true) →
          envC1W.delete_binary_ok = true →
          (∀ d, (none : Option String) = some d → envC1W.delete_deep_hash_ok = true) →
          (save_message envC1W bsC1 [] msgC1 [1, 2] none).result = Except.error e
          ∧ (save_message envC1W bsC1 [] msgC1 [1, 2] none).tbl = []
          ∧ exists_key (save_message envC1W bsC1 [] msgC1 [1, 2] none).bs
              msgC1.message_id (some msgC1.assignment_id) msgC1.process_id
              (toString msgC1.timestamp) = false)) :=
  ⟨rfl, rfl, save_message_dual_store envC1W bsC1 [] msgC1 [1, 2] none rfl rfl⟩

lemma mem_filterFrom (key : DbMessage → Int) (fv : Option Int) (l : List DbMessage)
    (r : DbMessage) :
    r ∈ filterFrom key fv l ↔ r ∈ l ∧ ∀ f, fv = some f → f < key r := by
  cases fv with
  | none => simp [filterFrom]
  | some f => simp [filterFrom, List.mem_filter]

lemma mem_filterTo (key : DbMessage → Int) (tv : Option Int) (l : List DbMessage)
    (r : DbMessage) :
    r ∈ filterTo key tv l ↔ r ∈ l ∧ ∀ t, tv = some t → key r ≤ t := by
  cases tv with
  | none => simp [filterTo]
  | some t => simp [filterTo, List.mem_filter]

lemma mem_baseFilter (tbl : List DbMessage) (pid : String) (r : DbMessage) :
    r ∈ tbl.filter (fun r => r.process_id == pid) ↔ r ∈ tbl ∧ r.process_id = pid := by
  simp [List.mem_filter]

lemma parseBound64_bridge (ft : Option String) (fv : Option Int) (c : Int → Prop)
    (hf : parseBound64 ft = Except.ok fv) :
    (∀ f, fv = some f → c f) ↔ (∀ s f, ft = some s → parseI64 s = some f → c f) := by
  cases ft with
  | none =>
    simp only [parseBound64] at hf
    cases hf
    simp
  | some s =>
    simp only [parseBound64] at hf
    cases hp : parseI64 s with
    | none => rw [hp] at hf; exact absurd hf (by simp)
    | some v =>
      rw [hp] at hf
      cases hf
      constructor
      · intro h s' f hs hpf
        cases hs
        rw [hp] at hpf
        cases hpf
        exact h _ rfl
      · intro h f hv
        cases hv
        exact h s v rfl hp

lemma parseBound32_bridge (ft : Option String) (fv : Option Int) (c : Int → Prop)
    (hf : parseBound32 ft = Except.ok fv) :
    (∀ f, fv = some f → c f) ↔ (∀ s f, ft = some s → parseI32 s = some f → c f) := by
  cases ft with
  | none =>
    simp only [parseBound32] at hf
    cases hf
    simp
  | some s =>
    simp only [parseBound32] at hf
    cases hp : parseI32 s with
    | none => rw [hp] at hf; exact absurd hf (by simp)
    | some v =>
      rw [hp] at hf
      cases hf
      constructor
      · intro h s' f hs hpf
        cases hs
        rw [hp] at hpf
        cases hpf
        exact h _ rfl
      · intro h f hv
        cases hv
        exact h s v rfl hp

/-- C5: in timestamp mode a row is selected iff `timestamp > from` (when
given) and `timestamp <= to` (when given); in nonce mode a row is selected
iff `nonce > from_nonce` and `nonce <= to_nonce` — each bound applies only
when present, and bounds combine cumulatively (left-exclusive,
right-inclusive in both modes). -/
theorem get_messages_bound_filters :
    (∀ (tbl : List DbMessage) (pid : String) (from_t to_t : Option String)
        (rows : List DbMessage),
      selectedRows tbl pid from_t to_t none none = Except.ok rows →
      ∀ r, r ∈ rows ↔ (r ∈ tbl ∧ r.process_id = pid
        ∧ (∀ s f, from_t = some s → parseI64 s = some f → f < r.timestamp)
        ∧ (∀ s t, to_t = some s → parseI64 s = some t → r.timestamp ≤ t)))
    ∧ (∀ (tbl : List DbMessage) (pid : String)
        (from_t to_t from_nonce to_nonce : Option String) (rows : List DbMessage),
      from_nonce.isSome = true ∨ to_nonce.isSome = true →
      selectedRows tbl pid from_t to_t from_nonce to_nonce = Except.ok rows →
      ∀ r, r ∈ rows ↔ (r ∈ tbl ∧ r.process_id = pid
        ∧ (∀ s f, from_nonce = some s → parseI32 s = some f → f < r.nonce)
        ∧ (∀ s t, to_nonce = some s → parseI32 s = some t → r.nonce ≤ t))) := by
  constructor
  · intro tbl pid ft tt rows hsel r
    simp only [selectedRows] at hsel
    cases hf : parseBound64 ft with
    | error e => rw [hf] at hsel; exact absurd hsel (by simp)
    | ok fv =>
      rw [hf] at hsel
      cases ht : parseBound64 tt with
      | error e => rw [ht] at hsel; exact absurd hsel (by simp)
      | ok tv =>
        rw [ht] at hsel
        simp only [Except.ok.injEq] at hsel
        subst hsel
        rw [mem_filterTo, mem_filterFrom, mem_baseFilter,
          parseBound64_bridge ft fv (fun f => f < r.timestamp) hf,
          parseBound64_bridge tt tv (fun t => r.timestamp ≤ t) ht]
        tauto
  · intro tbl pid ft tt fn tn rows hnz hsel r
    cases fn with
    | none =>
      cases tn with
      | none => simp at hnz
      | some sn =>
        simp only [selectedRows] at hsel
        cases hf : parseBound32 (none : Option String) with
        | error e => rw [hf] at hsel; exact absurd hsel (by simp)
        | ok fv =>
          rw [hf] at hsel
          cases ht : parseBound32 (some sn) with
          | error e => rw [ht] at hsel; exact absurd hsel (by simp)
          | ok tv =>
            rw [ht] at hsel
            simp only [Except.ok.injEq] at hsel
            subst hsel
            rw [mem_filterTo, mem_filterFrom, mem_baseFilter,
              parseBound32_bridge (none : Option String) fv (fun f => f < r.nonce) hf,
              parseBound32_bridge (some sn) tv (fun t => r.nonce ≤ t) ht]
            tauto
    | some sf =>
      simp only [selectedRows] at hsel
      cases hf : parseBound32 (some sf) with
      | error e => rw [hf] at hsel; exact absurd hsel (by simp)
      | ok fv =>
        rw [hf] at hsel
        cases ht : parseBound32 tn with
        | error e => rw [ht] at hsel; exact absurd hsel (by simp)
        | ok tv =>
          rw [ht] at hsel
          simp only [Except.ok.injEq] at hsel
          subst hsel
          rw [mem_filterTo, mem_filterFrom, mem_baseFilter,
            parseBound32_bridge (some sf) fv (fun f => f < r.nonce) hf,
            parseBound32_bridge tn tv (fun t => r.nonce ≤ t) ht]
          tauto

/-- Concrete rows for the C5 witness. -/
def rowC5a : DbMessage := DbMessage.mk 1 "p1" "m1" (some "a1") "d1" 0 0 1000 [1] "h1"

def rowC5b : DbMessage := DbMessage.mk 2 "p1" "m2" (some "a2") "d2" 0 1 2000 [2] "h2"

def tblC5 : List DbMessage := [rowC5a, rowC5b]

theorem get_messages_bound_filters_witness :
    selectedRows tblC5 "p1" (some "1500") none none none = Except.ok [rowC5b]
    ∧ (∀ r, r ∈ [rowC5b] ↔ (r ∈ tblC5 ∧ r.process_id = "p1"
        ∧ (∀ s f, (some "1500" : Option String) = some s → parseI64 s = some f →
            f < r.timestamp)
        ∧ (∀ s t, (none : Option String) = some s → parseI64 s = some t →
            r.timestamp ≤ t)))
    ∧ ((some "0" : Option String).isSome = true ∨ (none : Option String).isSome = true)
    ∧ selectedRows tblC5 "p1" none none (some "0") none = Except.ok [rowC5b]
    ∧ (∀ r, r ∈ [rowC5b] ↔ (r ∈ tblC5 ∧ r.process_id = "p1"
        ∧ (∀ s f, (some "0" : Option String) = some s → parseI32 s = some f →
            f < r.nonce)
        ∧ (∀ s t, (none : Option String) = some s → parseI32 s = some t →
            r.nonce ≤ t))) :=
  ⟨by decide,
   get_messages_bound_filters.1 tblC5 "p1" (some "1500") none [rowC5b] (by decide),
   Or.inl rfl,
   by decide,
   get_messages_bound_filters.2 tblC5 "p1" none none (some "0") none [rowC5b]
     (Or.inl rfl) (by decide)⟩

lemma insertByTs_length (r : DbMessage) (l : List DbMessage) :
    (insertByTs r l).length = l.length + 1 := by
  induction l with
  | nil => rfl
  | cons x xs ih =>
    by_cases h : r.timestamp < x.timestamp <;> simp [insertByTs, h, ih]

lemma sortByTsAsc_length (l : List DbMessage) : (sortByTsAsc l).length = l.length := by
  induction l with
  | nil => rfl
  | cons x xs ih => simp [sortByTsAsc, insertByTs_length, ih]

lemma get_message_internal_no_proc (tbl : List DbMessage) (mid : String)
    (aid : Option String) (msg : Message)
    (h : get_message_internal tbl mid aid = Except.ok msg) : msg.isProc = false := by
  simp only [get_message_internal] at h
  split at h
  · rw [Except.ok.injEq] at h
    rw [← h]
    rfl
  · exact absurd h (by simp)

lemma mapRows_ok_length (tbl : List DbMessage) (bins : List (Id4 × List Nat)) :
    ∀ (l : List DbMessage) (ms : List Message),
      mapRows tbl bins l = Except.ok ms → ms.length = l.length := by
  intro l
  induction l with
  | nil =>
    intro ms h
    simp only [mapRows, Except.ok.injEq] at h
    rw [← h]
    rfl
  | cons r rest ih =>
    intro ms h
    cases hlk : lookupId bins (idOf r) with
    | some b =>
      cases hrec : mapRows tbl bins rest with
      | ok ms' =>
        simp only [mapRows, hlk, hrec, Except.ok.injEq] at h
        rw [← h]
        simp [ih ms' hrec]
      | error e =>
        simp only [mapRows, hlk, hrec] at h
        exact absurd h (by simp)
    | none =>
      cases hgmi : get_message_internal tbl r.message_id r.assignment_id with
      | ok msg =>
        cases hrec : mapRows tbl bins rest with
        | ok ms' =>
          simp only [mapRows, hlk, hgmi, hrec, Except.ok.injEq] at h
          rw [← h]
          simp [ih ms' hrec]
        | error e =>
          simp only [mapRows, hlk, hgmi, hrec] at h
          exact absurd h (by simp)
      | error e =>
        simp only [mapRows, hlk, hgmi] at h
        exact absurd h (by simp)

lemma mapRows_ok_no_proc (tbl : List DbMessage) (bins : List (Id4 × List Nat)) :
    ∀ (l : List DbMessage) (ms : List Message),
      mapRows tbl bins l = Except.ok ms → ∀ m ∈ ms, m.isProc = false := by
  intro l
  induction l with
  | nil =>
    intro ms h
    simp only [mapRows, Except.ok.injEq] at h
    rw [← h]
    simp
  | cons r rest ih =>
    intro ms h
    cases hlk : lookupId bins (idOf r) with
    | some b =>
      cases hrec : mapRows tbl bins rest with
      | ok ms' =>
        simp only [mapRows, hlk, hrec, Except.ok.injEq] at h
        rw [← h]
        intro m hm
        rcases List.mem_cons.mp hm with hm | hm
        · rw [hm]; rfl
        · exact ih ms' hrec m hm
      | error e =>
        simp only [mapRows, hlk, hrec] at h
        exact absurd h (by simp)
    | none =>
      cases hgmi : get_message_internal tbl r.message_id r.assignment_id with
      | ok msg =>
        cases hrec : mapRows tbl bins rest with
        | ok ms' =>
          simp only [mapRows, hlk, hgmi, hrec, Except.ok.injEq] at h
          rw [← h]
          intro m hm
          rcases List.mem_cons.mp hm with hm | hm
          · rw [hm]
            exact get_message_internal_no_proc tbl r.message_id r.assignment_id msg hgmi
          · exact ih ms' hrec m hm
        | error e =>
          simp only [mapRows, hlk, hgmi, hrec] at h
          exact absurd h (by simp)
      | error e =>
        simp only [mapRows, hlk, hgmi] at h
        exact absurd h (by simp)

lemma i64ToUsize_toNat (n : Int) (h0 : 0 ≤ n) (h1 : n < 2 ^ 64) :
    i64ToUsize n = n.toNat := by
  unfold i64ToUsize
  omega

lemma sliceOutcome_ok_inv (rows : List DbMessage) (adj : Int) (pr : List DbMessage)
    (hn : Bool) (hhigh : adj < 2 ^ 31)
    (h : sliceOutcome rows adj = Outcome.ok (pr, hn)) :
    0 ≤ adj ∧ hn = decide ((rows.length : Int) > adj)
      ∧ (pr.length : Int) = min (rows.length : Int) adj := by
  simp only [sliceOutcome] at h
  split at h
  · exact absurd h (by simp)
  · rename_i hneg
    set F := (sortByTsAsc rows).take (adj + 1).toNat with hF
    have hFlen : F.length = min (adj + 1).toNat rows.length := by
      rw [hF, List.length_take, sortByTsAsc_length]
    split at h
    · rename_i hnext
      split at h
      · rename_i hcut2
        rw [Outcome.ok.injEq, Prod.mk.injEq] at h
        obtain ⟨hpr, hhn⟩ := h
        have h0 : 0 ≤ adj := by
          by_contra hA
          push_neg at hA
          have hadj1 : adj = -1 := by omega
          have hF0 : F.length = 0 := by rw [hFlen, hadj1]; simp
          rw [hF0, hadj1] at hcut2
          exact absurd hcut2 (by decide)
        have hgt : (rows.length : Int) > adj := by
          have hx := of_decide_eq_true hnext
          rw [hFlen] at hx
          omega
        refine ⟨h0, ?_, ?_⟩
        · rw [← hhn, decide_eq_decide, hFlen]
          omega
        · rw [← hpr, List.length_take, hFlen, i64ToUsize_toNat adj h0 (by omega)]
          omega
      · exact absurd h (by simp)
    · rename_i hnext
      simp only [decide_eq_true_eq] at hnext
      rw [if_pos (le_refl _)] at h
      rw [Outcome.ok.injEq, Prod.mk.injEq] at h
      obtain ⟨hpr, hhn⟩ := h
      rw [hFlen] at hnext
      have h0 : 0 ≤ adj := by omega
      refine ⟨h0, ?_, ?_⟩
      · rw [← hhn, decide_eq_decide, hFlen]
        omega
      · rw [← hpr, List.take_length, hFlen]
        omega

lemma finishFetch_ok_mode (tbl : List DbMessage) (bs : ByteStore) (proc : ProcessRec)
    (rows : List DbMessage) (mode : String) (incl : Bool) (limit : Option Int)
    (page : PaginatedMessages)
    (h : finishFetch tbl bs proc rows mode incl limit = Outcome.ok page) :
    page.mode = mode := by
  simp only [finishFetch] at h
  split at h
  · exact absurd h (by simp)
  · exact absurd h (by simp)
  · rename_i pr hn hso
    split at h
    · cases hrb : read_binaries bs (List.map idOf pr) with
      | error e =>
        simp only [hrb] at h
        exact absurd h (by simp)
      | ok bins =>
        simp only [hrb] at h
        cases hmr : mapRows tbl bins pr with
        | error e =>
          simp only [hmr] at h
          exact absurd h (by simp)
        | ok msgs =>
          simp only [hmr, Outcome.ok.injEq] at h
          rw [← h]
    · rw [Outcome.ok.injEq] at h
      rw [← h]

lemma finishFetch_ok_shape (tbl : List DbMessage) (bs : ByteStore) (proc : ProcessRec)
    (rows : List DbMessage) (mode : String) (incl : Bool) (limit : Option Int)
    (page : PaginatedMessages)
    (hlim : limit.getD 100 < 2 ^ 31)
    (h : finishFetch tbl bs proc rows mode incl limit = Outcome.ok page) :
    ∃ msgs,
      0 ≤ (if incl then limit.getD 100 - 1 else limit.getD 100)
      ∧ page.mode = mode
      ∧ page.hasNext = decide ((rows.length : Int) >
          (if incl then limit.getD 100 - 1 else limit.getD 100))
      ∧ page.messages = (if incl then [Message.ofProcess proc] else []) ++ msgs
      ∧ (msgs.length : Int) = min (rows.length : Int)
          (if incl then limit.getD 100 - 1 else limit.getD 100)
      ∧ ∀ m ∈ msgs, m.isProc = false := by
  have hadjhigh : (if incl then limit.getD 100 - 1 else limit.getD 100) < 2 ^ 31 := by
    cases incl <;> simp <;> omega
  simp only [finishFetch] at h
  split at h
  · exact absurd h (by simp)
  · exact absurd h (by simp)
  · rename_i pr hn hso
    obtain ⟨h0, hhn, hlen⟩ := sliceOutcome_ok_inv rows _ pr hn hadjhigh hso
    split at h
    · cases hrb : read_binaries bs (List.map idOf pr) with
      | error e =>
        simp only [hrb] at h
        exact absurd h (by simp)
      | ok bins =>
        simp only [hrb] at h
        cases hmr : mapRows tbl bins pr with
        | error e =>
          simp only [hmr] at h
          exact absurd h (by simp)
        | ok msgs =>
          simp only [hmr, Outcome.ok.injEq] at h
          refine ⟨msgs, h0, ?_, ?_, ?_, ?_, ?_⟩
          · rw [← h]
          · rw [← h]; exact hhn
          · rw [← h]
          · rw [Nat.cast_inj.mpr (mapRows_ok_length tbl bins pr msgs hmr)]
            exact hlen
          · exact mapRows_ok_no_proc tbl bins pr msgs hmr
    · rw [Outcome.ok.injEq] at h
      refine ⟨pr.map (fun r => Message.ofVal r.message_data r.bundle), h0, ?_, ?_, ?_, ?_, ?_⟩
      · rw [← h]
      · rw [← h]; exact hhn
      · rw [← h]
      · rw [Nat.cast_inj.mpr (List.length_map pr _)]
        exact hlen
      · intro m hm
        rw [List.mem_map] at hm
        obtain ⟨r, _, hr⟩ := hm
        rw [← hr]
        rfl

lemma get_messages_ok_inv (tbl : List DbMessage) (bs : ByteStore) (proc : ProcessRec)
    (from_t to_t : Option String) (limit : Option Int)
    (from_nonce to_nonce : Option String) (page : PaginatedMessages)
    (h : get_messages tbl bs proc from_t to_t limit from_nonce to_nonce =
      Outcome.ok page) :
    ∃ rows, selectedRows tbl proc.process_id from_t to_t from_nonce to_nonce =
        Except.ok rows
      ∧ finishFetch tbl bs proc rows (seqMode from_nonce to_nonce)
          (includeProcess proc from_t from_nonce to_nonce) limit = Outcome.ok page := by
  simp only [get_messages] at h
  split at h
  · exact absurd h (by simp)
  · rename_i rows hsel
    exact ⟨rows, hsel, h⟩

lemma selectedRows_fn_parses (tbl : List DbMessage) (pid : String)
    (from_t to_t : Option String) (s : String) (to_nonce : Option String)
    (rows : List DbMessage)
    (hsel : selectedRows tbl pid from_t to_t (some s) to_nonce = Except.ok rows) :
    ∃ v, parseI32 s = some v := by
  cases hp : parseI32 s with
  | some v => exact ⟨v, rfl⟩
  | none =>
    simp only [selectedRows, parseBound32, hp] at hsel
    exact absurd hsel (by simp)

/-- The claim's splice condition: the process has an assignment, and the
request is a first page (timestamp mode with no `from`, or nonce mode with
`from_nonce` absent or parsing to `-1`). -/
def spliceCond (proc : ProcessRec) (from_t from_nonce to_nonce : Option String) : Prop :=
  proc.assignment.isSome = true ∧
    ((from_nonce = none ∧ to_nonce = none ∧ from_t = none) ∨
     ((from_nonce ≠ none ∨ to_nonce ≠ none) ∧
       (from_nonce = none ∨ ∃ s, from_nonce = some s ∧ parseI32 s = some (-1))))

lemma includeProcess_iff_spliceCond (proc : ProcessRec)
    (from_t from_nonce to_nonce : Option String)
    (hparse : ∀ s, from_nonce = some s → ∃ v, parseI32 s = some v) :
    includeProcess proc from_t from_nonce to_nonce = true ↔
      spliceCond proc from_t from_nonce to_nonce := by
  cases from_nonce with
  | none =>
    cases to_nonce with
    | none =>
      simp [includeProcess, spliceCond, Option.isNone_iff_eq_none]
    | some st =>
      simp [includeProcess, spliceCond]
  | some sf =>
    obtain ⟨v, hv⟩ := hparse sf rfl
    simp [includeProcess, spliceCond, hv]

/-- C2: the synthetic process-as-message entry is the first element of a
returned page exactly when `process.assignment` is present and the request
is a first page (timestamp mode with `from = None`, or nonce mode with
`from_nonce` absent or parsing to `-1`); in every other case no process
entry appears anywhere in the result. -/
theorem get_messages_process_splice (tbl : List DbMessage) (bs : ByteStore)
    (proc : ProcessRec) (from_t to_t : Option String) (limit : Option Int)
    (from_nonce to_nonce : Option String) (page : PaginatedMessages)
    (hlim : limit.getD 100 < 2 ^ 31)
    (hok : get_messages tbl bs proc from_t to_t limit from_nonce to_nonce =
      Outcome.ok page) :
    (spliceCond proc from_t from_nonce to_nonce →
      page.messages.head? = some (Message.ofProcess proc))
    ∧ (¬ spliceCond proc from_t from_nonce to_nonce →
      ∀ m ∈ page.messages, m.isProc = false) := by
  obtain ⟨rows, hsel, hff⟩ :=
    get_messages_ok_inv tbl bs proc from_t to_t limit from_nonce to_nonce page hok
  obtain ⟨msgs, h0, hmode, hhn, hmsgs, hlen, hnp⟩ :=
    finishFetch_ok_shape tbl bs proc rows _ _ limit page hlim hff
  have hparse : ∀ s, from_nonce = some s → ∃ v, parseI32 s = some v := by
    intro s hs
    rw [hs] at hsel
    exact selectedRows_fn_parses tbl proc.process_id from_t to_t s to_nonce rows hsel
  have hiff := includeProcess_iff_spliceCond proc from_t from_nonce to_nonce hparse
  constructor
  · intro hc
    have hip := hiff.mpr hc
    simp only [hip, if_true, List.singleton_append] at hmsgs
    rw [hmsgs]
    rfl
  · intro hc
    have hip : includeProcess proc from_t from_nonce to_nonce = false := by
      cases hb : includeProcess proc from_t from_nonce to_nonce with
      | true => exact absurd (hiff.mp hb) hc
      | false => rfl
    simp only [hip, if_false, List.nil_append] at hmsgs
    intro m hm
    rw [hmsgs] at hm
    exact hnp m hm

/-- C3: the number of returned entries (including any spliced process
entry) is at most the effective limit (default 100), and `has_next_page`
is true iff the database fetch of adjusted-limit-plus-one rows returned
more than adjusted-limit rows, i.e. the selected row set has more than
adjusted-limit rows. -/
theorem get_messages_page_size (tbl : List DbMessage) (bs : ByteStore)
    (proc : ProcessRec) (from_t to_t : Option String) (limit : Option Int)
    (from_nonce to_nonce : Option String) (page : PaginatedMessages)
    (rows : List DbMessage)
    (hlim : limit.getD 100 < 2 ^ 31)
    (hok : get_messages tbl bs proc from_t to_t limit from_nonce to_nonce =
      Outcome.ok page)
    (hsel : selectedRows tbl proc.process_id from_t to_t from_nonce to_nonce =
      Except.ok rows) :
    (page.messages.length : Int) ≤ limit.getD 100
    ∧ (page.hasNext = true ↔ (rows.length : Int) >
        (if includeProcess proc from_t from_nonce to_nonce then limit.getD 100 - 1
         else limit.getD 100)) := by
  obtain ⟨rows', hsel', hff⟩ :=
    get_messages_ok_inv tbl bs proc from_t to_t limit from_nonce to_nonce page hok
  rw [hsel] at hsel'
  have hrr := Except.ok.inj hsel'
  subst hrr
  obtain ⟨msgs, h0, hmode, hhn, hmsgs, hlen, hnp⟩ :=
    finishFetch_ok_shape tbl bs proc rows _ _ limit page hlim hff
  constructor
  · rw [hmsgs, List.length_append]
    push_cast
    cases hb : includeProcess proc from_t from_nonce to_nonce <;>
      simp only [hb, if_true, if_false] at h0 hlen ⊢ <;> simp <;> omega
  · rw [hhn]
    simp [decide_eq_true_eq]

/-- C4: a `get_messages` call with either nonce bound set produces a
result tagged with sequence mode "nonce"; with both bounds absent it is
tagged "timestamp". -/
theorem get_messages_sequence_mode (tbl : List DbMessage) (bs : ByteStore)
    (proc : ProcessRec) (from_t to_t : Option String) (limit : Option Int)
    (from_nonce to_nonce : Option String) (page : PaginatedMessages)
    (hok : get_messages tbl bs proc from_t to_t limit from_nonce to_nonce =
      Outcome.ok page) :
    (from_nonce = none ∧ to_nonce = none → page.mode = "timestamp")
    ∧ (from_nonce.isSome = true ∨ to_nonce.isSome = true → page.mode = "nonce") := by
  obtain ⟨rows, hsel, hff⟩ :=
    get_messages_ok_inv tbl bs proc from_t to_t limit from_nonce to_nonce page hok
  have hmode := finishFetch_ok_mode tbl bs proc rows _ _ limit page hff
  constructor
  · rintro ⟨h1, h2⟩
    subst h1
    subst h2
    rw [hmode]
    rfl
  · intro h
    rw [hmode]
    rcases h with h | h
    · obtain ⟨s, hs⟩ := Option.isSome_iff_exists.mp h
      subst hs
      rfl
    · obtain ⟨s, hs⟩ := Option.isSome_iff_exists.mp h
      subst hs
      cases from_nonce <;> rfl

/-- Concrete process for the `get_messages` witnesses. -/
def procW : ProcessRec := ProcessRec.mk "p1" (some "a1")

/-- A not-ready bytestore (the direct relational branch of `get_messages`). -/
def bsNR : ByteStore := ByteStore.mk none 1000

def rowW : DbMessage := DbMessage.mk 1 "p1" "m1" (some "a1") "d1" 0 0 1000 [1] "h1"

def tblW : List DbMessage := [rowW]

/-- The page `get_messages` returns on the witness inputs. -/
def pageW : PaginatedMessages :=
  PaginatedMessages.mk [Message.ofProcess procW, Message.ofVal "d1" [1]] false "timestamp"

theorem get_messages_process_splice_witness :
    ((some 10 : Option Int).getD 100 < 2 ^ 31)
    ∧ get_messages tblW bsNR procW none none (some 10) none none = Outcome.ok pageW
    ∧ ((spliceCond procW none none none →
        pageW.messages.head? = some (Message.ofProcess procW))
      ∧ (¬ spliceCond procW none none none → ∀ m ∈ pageW.messages, m.isProc = false)) :=
  ⟨by decide, by rfl,
   get_messages_process_splice tblW bsNR procW none none (some 10) none none pageW
     (by decide) (by rfl)⟩

theorem get_messages_page_size_witness :
    ((some 10 : Option Int).getD 100 < 2 ^ 31)
    ∧ get_messages tblW bsNR procW none none (some 10) none none = Outcome.ok pageW
    ∧ selectedRows tblW "p1" none none none none = Except.ok [rowW]
    ∧ ((pageW.messages.length : Int) ≤ (some 10 : Option Int).getD 100
      ∧ (pageW.hasNext = true ↔ (([rowW] : List DbMessage).length : Int) >
          (if includeProcess procW none none none then (some 10 : Option Int).getD 100 - 1
           else (some 10 : Option Int).getD 100))) :=
  ⟨by decide, by rfl, by rfl,
   get_messages_page_size tblW bsNR procW none none (some 10) none none pageW [rowW]
     (by decide) (by rfl) (by rfl)⟩

theorem get_messages_sequence_mode_witness :
    get_messages tblW bsNR procW none none (some 10) none none = Outcome.ok pageW
    ∧ (((none : Option String) = none ∧ (none : Option String) = none →
        pageW.mode = "timestamp")
      ∧ ((none : Option String).isSome = true ∨ (none : Option String).isSome = true →
        pageW.mode = "nonce")) :=
  ⟨by rfl,
   get_messages_sequence_mode tblW bsNR procW none none (some 10) none none pageW
     (by rfl)⟩
